import Mathlib

/-!
Shallow embedding of `w3af/plugins/grep/retirejs.py` (the `retirejs` grep
plugin) and proofs about it.

Modelling conventions:
* MD5 (`hashlib.md5(...).hexdigest()`) is an abstract function
  `md5 : String → String` passed explicitly; response bodies and URL strings
  are both modelled as `String`.
* The `DiskSet` of analyzed hashes is a `List String` used as a set.
* The external `retire` process run is an oracle `ProcRun` holding the exit
  status `process.returncode` and the outcome of reading + JSON-parsing the
  output file (`some doc` when `json.loads(file(...).read())` succeeds,
  `none` when it raises).
* The file system is a `List String` of existing file names; creating a
  temporary file conses its name, `os.remove` fails (returns `none`) exactly
  on an absent name.
* Python's duck-typed JSON values are modelled by typed structures whose
  `Option` fields mirror exactly the `.get(key, default)` accesses the
  plugin performs.
-/

namespace Retirejs

/-- Severity constants from `w3af.core.data.constants.severity` (only the
values this plugin can produce or compare against). -/
inductive Severity
  | INFORMATION
  | LOW
  | MEDIUM
  | HIGH
deriving DecidableEq, Repr

/-- The fields of an HTTP response that `retirejs` reads: `get_url().url_string`,
`get_uri()`, `get_body()`, `get_code()`, `is_text_or_html()` and `get_id()`. -/
structure Response where
  url : String
  uri : String
  body : String
  code : Nat
  is_text_or_html : Bool
  id : Nat
deriving DecidableEq, Repr

/-- The only field of the HTTP request that `retirejs.grep` reads:
`request.get_method()`. -/
structure Request where
  method : String
deriving DecidableEq, Repr

/-- The `identifiers` sub-dictionary of a retirejs JSON vulnerability entry;
the plugin only reads `.get('summary', 'unknown')` from it. -/
structure JsonIdentifiers where
  summary : Option String
deriving DecidableEq, Repr

/-- One entry of a result's `vulnerabilities` list as read by
`_handle_result`: `.get('severity', 'unknown')`,
`.get('identifiers', {}).get('summary', 'unknown')` and `.get('info', [])`. -/
structure JsonVulnerability where
  severity : Option String
  identifiers : Option JsonIdentifiers
  info : Option (List String)
deriving DecidableEq, Repr

/-- One entry of a finding's `results` list as read by `_handle_result`:
`.get('version', None)`, `.get('component', None)` and
`.get('vulnerabilities', [])`. -/
structure JsonResult where
  version : Option String
  component : Option String
  vulnerabilities : Option (List JsonVulnerability)
deriving DecidableEq, Repr

/-- One entry of the top-level retirejs JSON document as read by
`_handle_finding`: `.get('results', [])`. -/
structure JsonFinding where
  results : Option (List JsonResult)
deriving DecidableEq, Repr

/-- The `RetireJSVulnerability` value object from retirejs.py. -/
structure RetireJSVulnerability where
  severity : String
  summary : String
  info_urls : List String
deriving DecidableEq, Repr

/-- The `VulnerabilityMessage` aggregate from retirejs.py. -/
structure VulnerabilityMessage where
  response : Response
  component : String
  version : String
  vulnerabilities : List RetireJSVulnerability
deriving DecidableEq, Repr

/-- `VulnerabilityMessage.add_vulnerability`: `self.vulnerabilities.append(v)`. -/
def VulnerabilityMessage.add_vulnerability (m : VulnerabilityMessage)
    (v : RetireJSVulnerability) : VulnerabilityMessage :=
  { m with vulnerabilities := m.vulnerabilities ++ [v] }

/-- Model of Python's `str.lower()`: lower-case every character (the
comparison target `'high'` is pure ASCII, for which `Char.toLower` agrees
with Python). -/
def str_lower (s : String) : String := ⟨s.data.map Char.toLower⟩

/-- The loop body of `VulnerabilityMessage.get_severity`: return
`severity.MEDIUM` at the first vulnerability whose `.severity.lower()` equals
`'high'`, `severity.LOW` if none does. -/
def get_severity_loop : List RetireJSVulnerability → Severity
  | [] => Severity.LOW
  | v :: rest =>
    if str_lower v.severity = "high" then Severity.MEDIUM
    else get_severity_loop rest

/-- `VulnerabilityMessage.get_severity` from retirejs.py. -/
def VulnerabilityMessage.get_severity (m : VulnerabilityMessage) : Severity :=
  get_severity_loop m.vulnerabilities

/-- Model of Python's `sep.join(parts)` used by `to_string`. -/
def join_with (sep : String) : List String → String
  | [] => ""
  | [x] => x
  | x :: y :: rest => x ++ sep ++ join_with sep (y :: rest)

/-- The generator `' - %s' % vuln.summary for vuln in self.vulnerabilities`
inside `VulnerabilityMessage.to_string`. -/
def VulnerabilityMessage.summary_lines (m : VulnerabilityMessage) : List String :=
  m.vulnerabilities.map (fun v => " - " ++ v.summary)

/-- `VulnerabilityMessage.to_string`: the fixed message template with url,
component, version and the newline-joined summary lines interpolated. -/
def VulnerabilityMessage.to_string (m : VulnerabilityMessage) : String :=
  "A JavaScript library with known vulnerabilities was identified at "
    ++ m.response.url
    ++ ". The library was identified as \"" ++ m.component ++ "\" version "
    ++ m.version ++ " and has these known vulnerabilities:\n\n"
    ++ join_with ("\n") m.summary_lines
    ++ "\n\nConsider updating to the latest stable release of the affected"
    ++ " library."

/-- The `Vuln` record written to the knowledge base by `_handle_result`
(`Vuln('Vulnerable JavaScript library in use', desc, real_severity,
response.get_id(), self.get_name())` plus `set_uri`). -/
structure Vuln where
  name : String
  desc : String
  severity : Severity
  response_id : Nat
  plugin_name : String
  uri : String
deriving DecidableEq, Repr

/-- The per-vulnerability block of `_handle_result`'s for-loop:
`RetireJSVulnerability(vulnerability.get('severity', 'unknown'),
vulnerability.get('identifiers', {}).get('summary', 'unknown'),
vulnerability.get('info', []))`. -/
def parse_vulnerability (jv : JsonVulnerability) : RetireJSVulnerability :=
  { severity := jv.severity.getD ("unknown")
  , summary := ((jv.identifiers.getD { summary := none }).summary).getD ("unknown")
  , info_urls := jv.info.getD [] }

/-- The message-building part of `_handle_result`: start from
`VulnerabilityMessage(response, component, version)` and
`add_vulnerability` each parsed vulnerability in order. -/
def result_message (response : Response) (component version : String)
    (vulns : List JsonVulnerability) : VulnerabilityMessage :=
  vulns.foldl
    (fun m jv => m.add_vulnerability (parse_vulnerability jv))
    { response := response, component := component, version := version
    , vulnerabilities := [] }

/-- `retirejs._handle_result`: returns the `Vuln` appended to the KB, or
`none` when the result is discarded (version or component missing, or the
vulnerabilities list empty — the source checks version/component first and
returns early, which the match realises identically). -/
def handle_result (response : Response) (json_result : JsonResult) :
    Option Vuln :=
  let vulnerabilities := json_result.vulnerabilities.getD []
  match json_result.version, json_result.component with
  | some version, some component =>
    if vulnerabilities.isEmpty then
      none
    else
      let message := result_message response component version vulnerabilities
      some { name := "Vulnerable JavaScript library in use"
           , desc := message.to_string
           , severity := message.get_severity
           , response_id := response.id
           , plugin_name := "retirejs"
           , uri := response.uri }
  | _, _ => none

/-- `retirejs._handle_finding`: iterate `json_finding.get('results', [])`,
handling each result; results that are discarded contribute nothing and
processing continues with the rest. -/
def handle_finding (response : Response) (json_finding : JsonFinding) :
    List Vuln :=
  (json_finding.results.getD []).filterMap (handle_result response)

/-- `retirejs._json_to_kb`: handle every finding of the JSON document. -/
def json_to_kb (response : Response) : List JsonFinding → List Vuln
  | [] => []
  | f :: rest => handle_finding response f ++ json_to_kb response rest

/-- `retirejs.METHODS`. -/
def METHODS : List String := ["GET"]

/-- `retirejs.HTTP_CODES`. -/
def HTTP_CODES : List Nat := [200]

/-- `retirejs.RETIRE_TIMEOUT`. -/
def RETIRE_TIMEOUT : Nat := 5

/-- `retirejs._should_analyze`: given the current contents of
`self._analyzed_hashes` return the boolean result together with the updated
hash set. The URL hash is checked and recorded before the body hash is even
computed, exactly as in the source. -/
def should_analyze (md5 : String → String) (analyzed_hashes : List String)
    (response : Response) : Bool × List String :=
  let url_hash := md5 response.url
  if url_hash ∈ analyzed_hashes then
    (false, analyzed_hashes)
  else
    let analyzed_hashes := url_hash :: analyzed_hashes
    let response_hash := md5 response.body
    if response_hash ∈ analyzed_hashes then
      (false, analyzed_hashes)
    else
      (true, response_hash :: analyzed_hashes)

/-- The mutable plugin attributes that the modelled methods read and write:
`_analyzed_hashes`, `_retirejs_exit_code_was_run` (initially `False`) and
`_retirejs_exit_code_result` (initially `None`, hence `Option Bool`). -/
structure PluginState where
  analyzed_hashes : List String
  exit_code_was_run : Bool
  exit_code_result : Option Bool
deriving DecidableEq, Repr

/-- Side effects of one `_retirejs_exit_code` call: whether
`subprocess.check_output` ran the analyzer, and whether `_remove_file` was
called on the transient output and check files. -/
structure CheckEffects where
  analyzer_invoked : Bool
  output_file_removed : Bool
  check_file_removed : Bool
deriving DecidableEq, Repr

/-- `retirejs._retirejs_exit_code`. `check_exit_status` is the exit status of
the one health-check run of retirejs on the empty file;
`subprocess.check_output` raises `CalledProcessError` exactly when it is
nonzero. On the memoized path the stored `Option Bool` is returned under
Python truthiness (`None` is falsy), which `Option.getD false` realises; by
then it is always `some _`. Both transient files are removed in the `finally`
block on both fresh branches. -/
def retirejs_exit_code (st : PluginState) (check_exit_status : Int) :
    Bool × PluginState × CheckEffects :=
  if st.exit_code_was_run then
    (st.exit_code_result.getD false, st,
     { analyzer_invoked := false
     , output_file_removed := false
     , check_file_removed := false })
  else
    let result := check_exit_status == 0
    (result,
     { st with exit_code_was_run := true, exit_code_result := some result },
     { analyzer_invoked := true
     , output_file_removed := true
     , check_file_removed := true })

/-- `retirejs.grep`, up to the decision of whether `_analyze_response` runs:
returns the updated plugin state and `true` exactly when this response is
handed to `_analyze_response` (and hence to the external analyzer). -/
def grep (md5 : String → String) (check_exit_status : Int)
    (st : PluginState) (request : Request) (response : Response) :
    PluginState × Bool :=
  let r := retirejs_exit_code st check_exit_status
  let st := r.2.1
  if !r.1 then (st, false)
  else if !(METHODS.contains request.method) then (st, false)
  else if !(HTTP_CODES.contains response.code) then (st, false)
  else if !response.is_text_or_html then (st, false)
  else
    let s := should_analyze md5 st.analyzed_hashes response
    ({ st with analyzed_hashes := s.2 }, s.1)

/-- A scan session: `grep` applied to a list of request/response pairs in
order, threading the plugin state; records for every pair whether its
response was analyzed. -/
def run_session (md5 : String → String) (check_exit_status : Int) :
    PluginState → List (Request × Response) →
    PluginState × List (Response × Bool)
  | st, [] => (st, [])
  | st, (req, resp) :: rest =>
    let p := grep md5 check_exit_status st req resp
    let q := run_session md5 check_exit_status p.1 rest
    (q.1, (resp, p.2) :: q.2)

/-- Number of session entries whose response has URL `u` and was analyzed. -/
def url_count (outs : List (Response × Bool)) (u : String) : Nat :=
  (outs.filter (fun p => p.2 && (p.1.url == u))).length

/-- Number of session entries whose response has body `b` and was analyzed. -/
def body_count (outs : List (Response × Bool)) (b : String) : Nat :=
  (outs.filter (fun p => p.2 && (p.1.body == b))).length

/-- Model of `os.remove`: removes the name from the file system, raising
(`none`) when the file does not exist. -/
def os_remove (fs : List String) (name : String) : Option (List String) :=
  if name ∈ fs then some (fs.filter (fun f => f ≠ name)) else none

/-- `retirejs._remove_file`: `os.remove` under `try ... except: pass`, so an
absent file leaves the file system unchanged instead of failing. -/
def remove_file (fs : List String) (name : String) : List String :=
  match os_remove fs name with
  | some fs2 => fs2
  | none => fs

/-- Oracle for one external analyzer run inside `_analyze_file`:
`returncode` is `process.returncode` after `process.wait()`, and
`output_parse` is the outcome of `json.loads(file(json_file.name).read())` —
`some doc` when reading and parsing succeed, `none` when any exception is
raised (unreadable file or malformed JSON). -/
structure ProcRun where
  returncode : Int
  output_parse : Option (List JsonFinding)
deriving DecidableEq, Repr

/-- Observable effects of `_analyze_file` besides its return value: whether
the output file was read, and whether the parse-failure debug message was
logged. -/
structure AnalyzeFileEffects where
  output_read : Bool
  parse_failure_logged : Bool
deriving DecidableEq, Repr

/-- `retirejs._analyze_file`: create the output file, run retirejs (the
`proc` oracle), read and parse the output only when the exit status is
nonzero, fall back to `[]` (logging) when parsing raises, and always remove
the output file before returning. -/
def analyze_file (proc : ProcRun) (fs : List String) (json_file : String) :
    List JsonFinding × AnalyzeFileEffects × List String :=
  let fs := json_file :: fs
  let r :=
    if proc.returncode = 0 then
      (([] : List JsonFinding),
       { output_read := false, parse_failure_logged := false
         : AnalyzeFileEffects })
    else
      match proc.output_parse with
      | some doc =>
        (doc, { output_read := true, parse_failure_logged := false })
      | none =>
        ([], { output_read := true, parse_failure_logged := true })
  (r.1, r.2, remove_file fs json_file)

/-- `retirejs._analyze_response`: write the response body to
`response_file`, run `_analyze_file` (which creates and removes
`json_file`), remove `response_file`, then write findings to the KB.
Returns the KB writes, the `_analyze_file` effects and the final file
system. -/
def analyze_response (response : Response) (proc : ProcRun)
    (fs : List String) (response_file json_file : String) :
    List Vuln × AnalyzeFileEffects × List String :=
  let fs := response_file :: fs
  let r := analyze_file proc fs json_file
  let fs := remove_file r.2.2 response_file
  (json_to_kb response r.1, r.2.1, fs)

/-! Helper lemmas. -/

theorem get_severity_loop_medium_iff (l : List RetireJSVulnerability) :
    get_severity_loop l = Severity.MEDIUM ↔
      ∃ v ∈ l, str_lower v.severity = "high" := by
  induction l with
  | nil => simp [get_severity_loop]
  | cons v rest ih =>
    by_cases h : str_lower v.severity = "high"
    · simp [get_severity_loop, h]
    · simp [get_severity_loop, h, ih]

theorem get_severity_loop_low_or_medium (l : List RetireJSVulnerability) :
    get_severity_loop l = Severity.LOW ∨ get_severity_loop l = Severity.MEDIUM := by
  induction l with
  | nil => exact Or.inl rfl
  | cons v rest ih =>
    by_cases h : str_lower v.severity = "high"
    · simp [get_severity_loop, h]
    · simpa [get_severity_loop, h] using ih

theorem get_severity_loop_low_of_no_high (l : List RetireJSVulnerability)
    (h : ∀ v ∈ l, str_lower v.severity ≠ "high") :
    get_severity_loop l = Severity.LOW := by
  rcases get_severity_loop_low_or_medium l with hl | hm
  · exact hl
  · rcases (get_severity_loop_medium_iff l).mp hm with ⟨v, hv, hhigh⟩
    exact absurd hhigh (h v hv)

theorem foldl_add_vulnerability (vulns : List JsonVulnerability)
    (m : VulnerabilityMessage) :
    (vulns.foldl (fun m jv => m.add_vulnerability (parse_vulnerability jv))
        m).vulnerabilities =
      m.vulnerabilities ++ vulns.map parse_vulnerability := by
  induction vulns generalizing m with
  | nil => simp
  | cons jv rest ih =>
    rw [List.foldl_cons, ih]
    simp [VulnerabilityMessage.add_vulnerability]

theorem result_message_vulnerabilities (response : Response)
    (component version : String) (vulns : List JsonVulnerability) :
    (result_message response component version vulns).vulnerabilities =
      vulns.map parse_vulnerability := by
  simpa [result_message] using
    foldl_add_vulnerability vulns
      { response := response, component := component, version := version
      , vulnerabilities := [] }

theorem handle_result_some (response : Response) (r : JsonResult) (v : Vuln)
    (h : handle_result response r = some v) :
    ∃ version component,
      r.version = some version ∧ r.component = some component ∧
      r.vulnerabilities.getD [] ≠ [] ∧
      v.severity =
        (result_message response component version
          (r.vulnerabilities.getD [])).get_severity := by
  cases hver : r.version with
  | none => simp [handle_result, hver] at h
  | some version =>
    cases hcomp : r.component with
    | none => simp [handle_result, hver, hcomp] at h
    | some component =>
      by_cases he : (r.vulnerabilities.getD []).isEmpty
      · simp [handle_result, hver, hcomp, he] at h
      · refine ⟨version, component, rfl, rfl, ?_, ?_⟩
        · simpa [List.isEmpty_iff] using he
        · simp only [handle_result, hver, hcomp, he, if_false,
            Bool.false_eq_true] at h
          rw [← Option.some_inj.mp h]

/-- C2: if any constituent vulnerability of a `VulnerabilityMessage` has
severity `"high"` case-insensitively, `get_severity` returns `MEDIUM`,
otherwise `LOW`; and every `Vuln` record that `_handle_result` persists to
the knowledge base carries exactly this derived severity (hence always
`MEDIUM` or `LOW`, never a raw analyzer severity string). -/
theorem c2_severity_normalization :
    (∀ m : VulnerabilityMessage,
       (∃ v ∈ m.vulnerabilities, str_lower v.severity = "high") →
         m.get_severity = Severity.MEDIUM) ∧
    (∀ m : VulnerabilityMessage,
       (∀ v ∈ m.vulnerabilities, str_lower v.severity ≠ "high") →
         m.get_severity = Severity.LOW) ∧
    (∀ (response : Response) (r : JsonResult) (v : Vuln),
       handle_result response r = some v →
         (v.severity = Severity.MEDIUM ∨ v.severity = Severity.LOW) ∧
         (v.severity = Severity.MEDIUM ↔
           ∃ jv ∈ r.vulnerabilities.getD [],
             str_lower (parse_vulnerability jv).severity = "high")) := by
  refine ⟨?_, ?_, ?_⟩
  · intro m h
    exact (get_severity_loop_medium_iff m.vulnerabilities).mpr h
  · intro m h
    exact get_severity_loop_low_of_no_high m.vulnerabilities h
  · intro response r v h
    obtain ⟨version, component, hver, hcomp, hne, hsev⟩ :=
      handle_result_some response r v h
    constructor
    · rw [hsev]
      rcases get_severity_loop_low_or_medium
          (result_message response component version
            (r.vulnerabilities.getD [])).vulnerabilities with hl | hm
      · exact Or.inr hl
      · exact Or.inl hm
    · rw [hsev]
      rw [show (result_message response component version
              (r.vulnerabilities.getD [])).get_severity =
            get_severity_loop ((r.vulnerabilities.getD []).map
              parse_vulnerability) from
          congrArg get_severity_loop
            (result_message_vulnerabilities response component version
              (r.vulnerabilities.getD []))]
      rw [get_severity_loop_medium_iff]
      constructor
      · rintro ⟨pv, hpv, hhigh⟩
        rcases List.mem_map.mp hpv with ⟨jv, hjv, rfl⟩
        exact ⟨jv, hjv, hhigh⟩
      · rintro ⟨jv, hjv, hhigh⟩
        exact ⟨parse_vulnerability jv, List.mem_map_of_mem _ hjv, hhigh⟩

/-- C2 witness: the two-vulnerability message with severities `HIGH` and
`low` derives `MEDIUM`. -/
theorem c2_severity_normalization_witness :
    ({ response := { url := "http://w/", uri := "http://w/", body := "b"
                   , code := 200, is_text_or_html := true, id := 1 }
     , component := "jquery", version := "1.8.1"
     , vulnerabilities :=
         [ { severity := "HIGH", summary := "s1", info_urls := [] }
         , { severity := "low", summary := "s2", info_urls := [] } ]
     } : VulnerabilityMessage).get_severity = Severity.MEDIUM :=
  c2_severity_normalization.1 _ (by decide)

theorem join_with_mem (sep : String) {x : String} :
    ∀ {l : List String}, x ∈ l → ∃ p q, join_with sep l = p ++ x ++ q := by
  intro l
  induction l with
  | nil => intro h; cases h
  | cons a t ih =>
    intro h
    cases t with
    | nil =>
      have hx : x = a := by simpa using h
      subst hx
      exact ⟨"", "", by
        simp [join_with, String.empty_append, String.append_empty]⟩
    | cons b t2 =>
      rcases List.mem_cons.mp h with rfl | hmem
      · exact ⟨"", sep ++ join_with sep (b :: t2), by
          simp [join_with, String.empty_append, String.append_assoc]⟩
      · rcases ih hmem with ⟨p, q, hpq⟩
        exact ⟨a ++ sep ++ p, q, by
          rw [join_with, hpq]
          simp [String.append_assoc]⟩

theorem to_string_contains (m : VulnerabilityMessage) {x : String}
    (h : x ∈ m.summary_lines) : ∃ p q, m.to_string = p ++ x ++ q := by
  rcases join_with_mem ("\n") h with ⟨p, q, hj⟩
  refine ⟨"A JavaScript library with known vulnerabilities was identified at "
      ++ m.response.url ++ ". The library was identified as \"" ++ m.component
      ++ "\" version " ++ m.version
      ++ " and has these known vulnerabilities:\n\n" ++ p
    , q ++ "\n\nConsider updating to the latest stable release of the affected"
      ++ " library.", ?_⟩
  rw [VulnerabilityMessage.to_string, hj]
  simp [String.append_assoc]

/-- C10: inside a kept result, a vulnerability entry with a missing
`severity` field defaults to the string `"unknown"` (which can never pass
the case-insensitive `"high"` test of `get_severity`), a missing
`identifiers` dictionary or a missing `identifiers.summary` defaults the
summary to `"unknown"`, and a missing `info` field defaults to `[]`; such an
entry is never discarded — it is parsed into the message and its summary
line occurs in the rendered report text. -/
theorem c10_missing_field_defaults :
    (∀ jv : JsonVulnerability, jv.severity = none →
       (parse_vulnerability jv).severity = "unknown" ∧
       str_lower (parse_vulnerability jv).severity ≠ "high") ∧
    (∀ jv : JsonVulnerability, jv.identifiers = none →
       (parse_vulnerability jv).summary = "unknown") ∧
    (∀ (jv : JsonVulnerability) (i : JsonIdentifiers),
       jv.identifiers = some i → i.summary = none →
       (parse_vulnerability jv).summary = "unknown") ∧
    (∀ jv : JsonVulnerability, jv.info = none →
       (parse_vulnerability jv).info_urls = []) ∧
    (∀ (response : Response) (component version : String)
       (vulns : List JsonVulnerability) (jv : JsonVulnerability),
       jv ∈ vulns →
         parse_vulnerability jv ∈
           (result_message response component version vulns).vulnerabilities ∧
         ∃ p q, (result_message response component version vulns).to_string =
           p ++ (" - " ++ (parse_vulnerability jv).summary) ++ q) := by
  refine ⟨?_, ?_, ?_, ?_, ?_⟩
  · intro jv h
    have hs : (parse_vulnerability jv).severity = "unknown" := by
      simp [parse_vulnerability, h]
    exact ⟨hs, by rw [hs]; decide⟩
  · intro jv h
    simp [parse_vulnerability, h]
  · intro jv i h hi
    simp [parse_vulnerability, h, hi]
  · intro jv h
    simp [parse_vulnerability, h]
  · intro response component version vulns jv hmem
    have hv : parse_vulnerability jv ∈
        (result_message response component version vulns).vulnerabilities := by
      rw [result_message_vulnerabilities]
      exact List.mem_map_of_mem _ hmem
    refine ⟨hv, ?_⟩
    exact to_string_contains _ (List.mem_map_of_mem _ hv)

/-- C10 witness: the all-defaults vulnerability entry parses to severity
`"unknown"`, summary `"unknown"`, no info URLs. -/
theorem c10_missing_field_defaults_witness :
    parse_vulnerability
        { severity := none, identifiers := none, info := none } =
      { severity := "unknown", summary := "unknown", info_urls := [] } := by
  have h1 := (c10_missing_field_defaults.1
    { severity := none, identifiers := none, info := none } rfl).1
  have h2 := c10_missing_field_defaults.2.1
    { severity := none, identifiers := none, info := none } rfl
  have h3 := c10_missing_field_defaults.2.2.2.1
    { severity := none, identifiers := none, info := none } rfl
  cases hp : parse_vulnerability
      { severity := none, identifiers := none, info := none }
  rw [hp] at h1 h2 h3
  simp at h1 h2 h3
  simp [h1, h2, h3]

/-- C6: a result whose `component` or `version` is absent, or whose
`vulnerabilities` list is (defaulted) empty, is discarded by
`_handle_result` — nothing is written to the KB — and `_handle_finding`
continues with the remaining results unchanged. -/
theorem c6_malformed_result_filtering :
    (∀ (response : Response) (r : JsonResult),
       (r.component = none ∨ r.version = none ∨
        r.vulnerabilities.getD [] = []) →
         handle_result response r = none) ∧
    (∀ (response : Response) (r : JsonResult) (rest : List JsonResult),
       (r.component = none ∨ r.version = none ∨
        r.vulnerabilities.getD [] = []) →
         handle_finding response { results := some (r :: rest) } =
           handle_finding response { results := some rest }) := by
  have h1 : ∀ (response : Response) (r : JsonResult),
      (r.component = none ∨ r.version = none ∨
       r.vulnerabilities.getD [] = []) →
      handle_result response r = none := by
    intro response r h
    rcases h with h | h | h
    · cases hv : r.version <;> simp [handle_result, hv, h]
    · simp [handle_result, h]
    · cases hv : r.version <;> cases hc : r.component <;>
        simp [handle_result, hv, hc, h]
  refine ⟨h1, ?_⟩
  intro response r rest h
  simp [handle_finding, List.filterMap_cons, h1 response r h]

/-- C6 witness: a result with a component and version but
`vulnerabilities: []` produces no KB record. -/
theorem c6_malformed_result_filtering_witness :
    handle_result
        { url := "http://w/", uri := "http://w/", body := "b", code := 200
        , is_text_or_html := true, id := 1 }
        { version := some ("1.0"), component := some ("jquery")
        , vulnerabilities := some [] } = none :=
  c6_malformed_result_filtering.1 _ _ (Or.inr (Or.inr rfl))

/-- C3: `_analyze_file` returns the empty outcome without reading the output
file when the process exit status is zero, and reads the output file exactly
when the exit status is nonzero. -/
theorem c3_exit_status_convention (proc : ProcRun) (fs : List String)
    (json_file : String) :
    (proc.returncode = 0 →
       (analyze_file proc fs json_file).1 = [] ∧
       (analyze_file proc fs json_file).2.1.output_read = false) ∧
    (proc.returncode ≠ 0 →
       (analyze_file proc fs json_file).2.1.output_read = true) := by
  constructor
  · intro h
    simp [analyze_file, h]
  · intro h
    cases hp : proc.output_parse <;> simp [analyze_file, h, hp]

/-- C3 witness: a clean (exit status 0) run yields `[]` and no read. -/
theorem c3_exit_status_convention_witness :
    (analyze_file { returncode := 0, output_parse := none } [] "out").1 = []
      ∧ (analyze_file { returncode := 0, output_parse := none } []
          "out").2.1.output_read = false :=
  (c3_exit_status_convention { returncode := 0, output_parse := none } []
    "out").1 rfl

/-- C4: when the exit status is nonzero and reading/JSON-parsing the output
file raises, `_analyze_file` logs the failure and returns the empty outcome;
the exception is swallowed (the embedding is a total function returning
normally on this path). -/
theorem c4_parse_failure_resilience (proc : ProcRun) (fs : List String)
    (json_file : String) (h0 : proc.returncode ≠ 0)
    (h1 : proc.output_parse = none) :
    (analyze_file proc fs json_file).1 = [] ∧
    (analyze_file proc fs json_file).2.1.parse_failure_logged = true := by
  simp [analyze_file, h0, h1]

/-- C4 witness: exit status 1 with unparseable output yields `[]` and the
logged flag. -/
theorem c4_parse_failure_resilience_witness :
    (analyze_file { returncode := 1, output_parse := none } [] "out").1 = []
      ∧ (analyze_file { returncode := 1, output_parse := none } []
          "out").2.1.parse_failure_logged = true :=
  c4_parse_failure_resilience { returncode := 1, output_parse := none } []
    "out" (by decide) rfl

/-- C9: `_should_analyze` records the URL fingerprint before checking the
body fingerprint, so on a fresh URL with an already-seen body it returns
`false` having still added the URL hash; on a fully fresh response both
fingerprints end up in the cache before any analysis outcome, and (when the
two fingerprints differ, as MD5 guarantees in practice) the cache gains
exactly both hashes with result `true`. -/
theorem c9_nonatomic_recording (md5 : String → String) (cache : List String)
    (response : Response) :
    (md5 response.url ∉ cache → md5 response.body ∈ cache →
       should_analyze md5 cache response =
         (false, md5 response.url :: cache)) ∧
    (md5 response.url ∉ cache → md5 response.body ∉ cache →
       md5 response.url ∈ (should_analyze md5 cache response).2 ∧
       md5 response.body ∈ (should_analyze md5 cache response).2) ∧
    (md5 response.url ∉ cache → md5 response.body ∉ cache →
       md5 response.body ≠ md5 response.url →
       should_analyze md5 cache response =
         (true, md5 response.body :: md5 response.url :: cache)) := by
  refine ⟨?_, ?_, ?_⟩
  · intro h1 h2
    have h3 : md5 response.body ∈ md5 response.url :: cache :=
      List.mem_cons_of_mem _ h2
    simp [should_analyze, h1, h3]
  · intro h1 h2
    by_cases h3 : md5 response.body ∈ md5 response.url :: cache
    · have hbu : md5 response.body = md5 response.url := by
        rcases List.mem_cons.mp h3 with h | h
        · exact h
        · exact absurd h h2
      simp [should_analyze, h1, h3, hbu]
    · simp [should_analyze, h1, h3]
  · intro h1 h2 h3
    have h4 : md5 response.body ∉ md5 response.url :: cache := by
      simp [List.mem_cons, h2, h3]
    simp [should_analyze, h1, h4]

/-- C9 witness: fresh URL `"u"`, already-seen body `"b"` (identity hash):
result is `false` with the URL hash recorded. -/
theorem c9_nonatomic_recording_witness :
    should_analyze (fun s => s) ["b"]
        { url := "u", uri := "u", body := "b", code := 200
        , is_text_or_html := true, id := 1 } = (false, ["u", "b"]) :=
  (c9_nonatomic_recording (fun s => s) ["b"] _).1 (by decide) (by decide)

theorem mem_should_analyze_snd {md5 : String → String} {cache : List String}
    {response : Response} {a : String} (h : a ∈ cache) :
    a ∈ (should_analyze md5 cache response).2 := by
  by_cases h1 : md5 response.url ∈ cache
  · simpa [should_analyze, h1] using h
  · by_cases h2 : md5 response.body ∈ md5 response.url :: cache
    · simp [should_analyze, h1, h2]
      exact Or.inr h
    · simp [should_analyze, h1, h2]
      exact Or.inr (Or.inr h)

theorem should_analyze_false_of_mem {md5 : String → String}
    {cache : List String} {response : Response}
    (h : md5 response.url ∈ cache ∨ md5 response.body ∈ cache) :
    (should_analyze md5 cache response).1 = false := by
  rcases h with h | h
  · simp [should_analyze, h]
  · by_cases h1 : md5 response.url ∈ cache
    · simp [should_analyze, h1]
    · have h2 : md5 response.body ∈ md5 response.url :: cache :=
        List.mem_cons_of_mem _ h
      simp [should_analyze, h1, h2]

theorem should_analyze_true_mem {md5 : String → String} {cache : List String}
    {response : Response}
    (h : (should_analyze md5 cache response).1 = true) :
    md5 response.url ∈ (should_analyze md5 cache response).2 ∧
    md5 response.body ∈ (should_analyze md5 cache response).2 := by
  by_cases h1 : md5 response.url ∈ cache
  · simp [should_analyze, h1] at h
  · by_cases h2 : md5 response.body ∈ md5 response.url :: cache
    · simp [should_analyze, h1, h2] at h
    · simp [should_analyze, h1, h2]

theorem exit_code_hashes (st : PluginState) (e : Int) :
    ((retirejs_exit_code st e).2.1).analyzed_hashes = st.analyzed_hashes := by
  cases h : st.exit_code_was_run <;> simp [retirejs_exit_code, h]

theorem grep_cases (md5 : String → String) (ce : Int) (st : PluginState)
    (req : Request) (resp : Response) :
    (∃ st1, grep md5 ce st req resp = (st1, false) ∧
       st1.analyzed_hashes = st.analyzed_hashes) ∨
    grep md5 ce st req resp =
      ({ (retirejs_exit_code st ce).2.1 with
         analyzed_hashes := (should_analyze md5 st.analyzed_hashes resp).2 },
       (should_analyze md5 st.analyzed_hashes resp).1) := by
  have hst := exit_code_hashes st ce
  by_cases h1 : (retirejs_exit_code st ce).1
  · by_cases h2 : req.method ∈ METHODS
    · by_cases h3 : resp.code ∈ HTTP_CODES
      · by_cases h4 : resp.is_text_or_html
        · right
          simp [grep, h1, h2, h3, h4, hst]
        · exact Or.inl ⟨_, by simp [grep, h1, h2, h3, h4], hst⟩
      · exact Or.inl ⟨_, by simp [grep, h1, h2, h3], hst⟩
    · exact Or.inl ⟨_, by simp [grep, h1, h2], hst⟩
  · exact Or.inl ⟨_, by simp [grep, h1], hst⟩

theorem grep_hashes_mono {md5 : String → String} {ce : Int}
    {st : PluginState} {req : Request} {resp : Response} {a : String}
    (h : a ∈ st.analyzed_hashes) :
    a ∈ (grep md5 ce st req resp).1.analyzed_hashes := by
  rcases grep_cases md5 ce st req resp with ⟨st1, heq, hh⟩ | heq
  · rw [heq]
    simpa [hh] using h
  · rw [heq]
    simpa using @mem_should_analyze_snd md5 st.analyzed_hashes resp a h

theorem grep_false_of_mem {md5 : String → String} {ce : Int}
    {st : PluginState} {req : Request} {resp : Response}
    (h : md5 resp.url ∈ st.analyzed_hashes ∨
         md5 resp.body ∈ st.analyzed_hashes) :
    (grep md5 ce st req resp).2 = false := by
  rcases grep_cases md5 ce st req resp with ⟨st1, heq, hh⟩ | heq
  · simp [heq]
  · rw [heq]
    simpa using should_analyze_false_of_mem h

theorem grep_true_mem {md5 : String → String} {ce : Int} {st : PluginState}
    {req : Request} {resp : Response}
    (h : (grep md5 ce st req resp).2 = true) :
    md5 resp.url ∈ (grep md5 ce st req resp).1.analyzed_hashes ∧
    md5 resp.body ∈ (grep md5 ce st req resp).1.analyzed_hashes := by
  rcases grep_cases md5 ce st req resp with ⟨st1, heq, hh⟩ | heq
  · rw [heq] at h
    simp at h
  · rw [heq] at h ⊢
    simpa using should_analyze_true_mem (by simpa using h)

theorem url_count_cons (resp : Response) (b : Bool)
    (outs : List (Response × Bool)) (u : String) :
    url_count ((resp, b) :: outs) u =
      url_count outs u + (if b = true ∧ resp.url = u then 1 else 0) := by
  by_cases hb : b = true <;> by_cases hu : resp.url = u <;>
    simp [url_count, List.filter_cons, hb, hu]

theorem body_count_cons (resp : Response) (b : Bool)
    (outs : List (Response × Bool)) (bd : String) :
    body_count ((resp, b) :: outs) bd =
      body_count outs bd + (if b = true ∧ resp.body = bd then 1 else 0) := by
  by_cases hb : b = true <;> by_cases hu : resp.body = bd <;>
    simp [body_count, List.filter_cons, hb, hu]

theorem url_count_zero {md5 : String → String} {ce : Int} {u : String} :
    ∀ (rs : List (Request × Response)) {st : PluginState},
      md5 u ∈ st.analyzed_hashes →
      url_count (run_session md5 ce st rs).2 u = 0 := by
  intro rs
  induction rs with
  | nil =>
    intro st h
    simp [run_session, url_count]
  | cons p rest ih =>
    intro st h
    obtain ⟨req, resp⟩ := p
    simp only [run_session]
    rw [url_count_cons]
    have hmono : md5 u ∈ (grep md5 ce st req resp).1.analyzed_hashes :=
      grep_hashes_mono h
    rw [ih hmono]
    by_cases hu : resp.url = u
    · have hfalse : (grep md5 ce st req resp).2 = false :=
        grep_false_of_mem (Or.inl (by rw [hu]; exact h))
      simp [hfalse]
    · simp [hu]

theorem body_count_zero {md5 : String → String} {ce : Int} {bd : String} :
    ∀ (rs : List (Request × Response)) {st : PluginState},
      md5 bd ∈ st.analyzed_hashes →
      body_count (run_session md5 ce st rs).2 bd = 0 := by
  intro rs
  induction rs with
  | nil =>
    intro st h
    simp [run_session, body_count]
  | cons p rest ih =>
    intro st h
    obtain ⟨req, resp⟩ := p
    simp only [run_session]
    rw [body_count_cons]
    have hmono : md5 bd ∈ (grep md5 ce st req resp).1.analyzed_hashes :=
      grep_hashes_mono h
    rw [ih hmono]
    by_cases hu : resp.body = bd
    · have hfalse : (grep md5 ce st req resp).2 = false :=
        grep_false_of_mem (Or.inr (by rw [hu]; exact h))
      simp [hfalse]
    · simp [hu]

theorem url_count_le_one {md5 : String → String} {ce : Int} {u : String} :
    ∀ (rs : List (Request × Response)) (st : PluginState),
      url_count (run_session md5 ce st rs).2 u ≤ 1 := by
  intro rs
  induction rs with
  | nil =>
    intro st
    simp [run_session, url_count]
  | cons p rest ih =>
    intro st
    obtain ⟨req, resp⟩ := p
    simp only [run_session]
    rw [url_count_cons]
    by_cases hb : (grep md5 ce st req resp).2 = true
    · by_cases hu : resp.url = u
      · have hmem : md5 u ∈ (grep md5 ce st req resp).1.analyzed_hashes := by
          rw [← hu]
          exact (grep_true_mem hb).1
        rw [url_count_zero rest hmem]
        simp [hb, hu]
      · rw [if_neg (by simp [hu])]
        exact ih _
    · rw [if_neg (by simp [hb])]
      exact ih _

theorem body_count_le_one {md5 : String → String} {ce : Int} {bd : String} :
    ∀ (rs : List (Request × Response)) (st : PluginState),
      body_count (run_session md5 ce st rs).2 bd ≤ 1 := by
  intro rs
  induction rs with
  | nil =>
    intro st
    simp [run_session, body_count]
  | cons p rest ih =>
    intro st
    obtain ⟨req, resp⟩ := p
    simp only [run_session]
    rw [body_count_cons]
    by_cases hb : (grep md5 ce st req resp).2 = true
    · by_cases hu : resp.body = bd
      · have hmem : md5 bd ∈ (grep md5 ce st req resp).1.analyzed_hashes := by
          rw [← hu]
          exact (grep_true_mem hb).2
        rw [body_count_zero rest hmem]
        simp [hb, hu]
      · rw [if_neg (by simp [hu])]
        exact ih _
    · rw [if_neg (by simp [hb])]
      exact ih _

/-- C1: a response whose URL fingerprint or body fingerprint is already in
the deduplication cache makes `_should_analyze` return `false` and `grep`
never hands it to `_analyze_response` (so the external analyzer is not
invoked on it); consequently in any scan session at most one response with
a given body is analyzed, and at most one response with a given URL is
analyzed. -/
theorem c1_dedup_short_circuit :
    (∀ (md5 : String → String) (cache : List String) (response : Response),
       (md5 response.url ∈ cache ∨ md5 response.body ∈ cache) →
         (should_analyze md5 cache response).1 = false) ∧
    (∀ (md5 : String → String) (ce : Int) (st : PluginState)
       (request : Request) (response : Response),
       (md5 response.url ∈ st.analyzed_hashes ∨
        md5 response.body ∈ st.analyzed_hashes) →
         (grep md5 ce st request response).2 = false) ∧
    (∀ (md5 : String → String) (ce : Int) (st : PluginState)
       (rs : List (Request × Response)) (bd : String),
       body_count (run_session md5 ce st rs).2 bd ≤ 1) ∧
    (∀ (md5 : String → String) (ce : Int) (st : PluginState)
       (rs : List (Request × Response)) (u : String),
       url_count (run_session md5 ce st rs).2 u ≤ 1) := by
  refine ⟨?_, ?_, ?_, ?_⟩
  · intro md5 cache response h
    exact should_analyze_false_of_mem h
  · intro md5 ce st request response h
    exact grep_false_of_mem h
  · intro md5 ce st rs bd
    exact body_count_le_one rs st
  · intro md5 ce st rs u
    exact url_count_le_one rs st

/-- C1 witness: with the URL hash `"u"` already cached, `_should_analyze`
returns `false`. -/
theorem c1_dedup_short_circuit_witness :
    (should_analyze (fun s => s) ["u"]
      { url := "u", uri := "u", body := "b", code := 200
      , is_text_or_html := true, id := 1 }).1 = false :=
  c1_dedup_short_circuit.1 (fun s => s) ["u"] _ (Or.inl (by decide))

/-- C7: `_retirejs_exit_code` is memoized — once `was_run` is set it returns
the stored boolean without invoking the analyzer or touching any file; the
first call invokes the analyzer once, stores `true` exactly when the exit
status is the expected no-findings status `0` (`subprocess.check_output`
raises exactly on nonzero status), and removes both transient check files
regardless of outcome; and while the stored result is `false`, `grep` skips
every response without modifying the plugin state. -/
theorem c7_health_check_memoization :
    (∀ (st : PluginState) (e : Int), st.exit_code_was_run = true →
       retirejs_exit_code st e =
         (st.exit_code_result.getD false, st,
          { analyzer_invoked := false, output_file_removed := false
          , check_file_removed := false })) ∧
    (∀ (st : PluginState) (e : Int), st.exit_code_was_run = false →
       retirejs_exit_code st e =
         ((e == 0),
          { st with exit_code_was_run := true
                  , exit_code_result := some (e == 0) },
          { analyzer_invoked := true, output_file_removed := true
          , check_file_removed := true })) ∧
    (∀ (md5 : String → String) (e : Int) (st : PluginState)
       (request : Request) (response : Response),
       st.exit_code_was_run = true → st.exit_code_result = some false →
         grep md5 e st request response = (st, false)) := by
  refine ⟨?_, ?_, ?_⟩
  · intro st e h
    simp [retirejs_exit_code, h]
  · intro st e h
    simp [retirejs_exit_code, h]
  · intro md5 e st request response h1 h2
    simp [grep, retirejs_exit_code, h1, h2]

/-- C7 witness: with a stored `false` result, `grep` leaves the state
unchanged and analyzes nothing. -/
theorem c7_health_check_memoization_witness :
    grep (fun s => s) 0
        { analyzed_hashes := [], exit_code_was_run := true
        , exit_code_result := some false }
        { method := "GET" }
        { url := "u", uri := "u", body := "b", code := 200
        , is_text_or_html := true, id := 1 } =
      ({ analyzed_hashes := [], exit_code_was_run := true
       , exit_code_result := some false }, false) :=
  c7_health_check_memoization.2.2 (fun s => s) 0 _ _ _ rfl rfl

theorem not_mem_remove_file (fs : List String) (a : String) :
    a ∉ remove_file fs a := by
  by_cases h : a ∈ fs
  · simp [remove_file, os_remove, h]
  · simp only [remove_file, os_remove, if_neg h]
    exact h

theorem mem_of_mem_remove_file {fs : List String} {a b : String}
    (h : b ∈ remove_file fs a) : b ∈ fs := by
  by_cases ha : a ∈ fs
  · simp [remove_file, os_remove, ha] at h
    exact h.1
  · simp only [remove_file, os_remove, if_neg ha] at h
    exact h

/-- C8: on every run of the analysis path both transient files — the
response input file and the analyzer output file — are absent from the file
system when `_analyze_response` returns, for every exit status and parse
outcome (timeout and parse failure included, which only vary `ProcRun`); and
`_remove_file` on an absent file is a no-op rather than an error. -/
theorem c8_unconditional_cleanup :
    (∀ (response : Response) (proc : ProcRun) (fs : List String)
       (response_file json_file : String),
       response_file ∉
         (analyze_response response proc fs response_file json_file).2.2 ∧
       json_file ∉
         (analyze_response response proc fs response_file json_file).2.2) ∧
    (∀ (fs : List String) (name : String), name ∉ fs →
       remove_file fs name = fs) := by
  constructor
  · intro response proc fs response_file json_file
    have heq : (analyze_response response proc fs response_file
          json_file).2.2 =
        remove_file (remove_file (json_file :: response_file :: fs)
          json_file) response_file := rfl
    constructor
    · rw [heq]
      exact not_mem_remove_file _ _
    · rw [heq]
      intro hmem
      exact not_mem_remove_file _ json_file (mem_of_mem_remove_file hmem)
  · intro fs name h
    simp [remove_file, os_remove, h]

/-- C8 witness: removing a file from an empty file system returns it
unchanged. -/
theorem c8_unconditional_cleanup_witness : remove_file [] "x" = [] :=
  c8_unconditional_cleanup.2 [] "x" (by decide)

end Retirejs
